import Mathlib

/-!
Verification development for `spotify-top-playlist-refresher` (`src/playlist.py`).

The embedding translates the source functions directly:

* `getTopTracks` embeds `get_top_tracks` (playlist.py lines 54-98).  The
  upstream client call `sp.current_user_top_tracks(limit=50, offset=...)` is
  an oracle `fetchPage : Nat → Option (List Track)`; `none` means the call
  raised an exception.  Note a faithfulness point about the source: its retry
  loop writes `except RequestException`, but the module only imports `Timeout`
  (`from requests.exceptions import Timeout`), so `RequestException` is an
  undefined name.  In Python, when an exception is raised inside the `try`,
  matching the first `except` clause evaluates the name `RequestException`,
  which itself raises `NameError`; that `NameError` propagates out of the
  whole `try` statement (the later `except Exception` clause of the same
  `try` is never consulted while a clause expression is being evaluated).
  Hence the very first failed page fetch aborts `get_top_tracks` with an
  uncaught `NameError` - the retry/backoff bodies are dead code.  The
  embedding reflects exactly that: a `none` from the oracle yields
  `Except.error PyError.nameError`.

* `retainedHead`, `toAdd`, `newTrackListFull`, `finalTrackList`,
  `appliedSequence` embed the pure reconciliation core of `update_playlist`
  (playlist.py lines 150-179).  `current_track_set = set(current_tracks)` is
  used only for membership tests, so list membership is an exact model.

* `getOrCreatePlaylist`, `updatePlaylist`, `runWindows`, `runMain` embed
  `get_or_create_playlist`, `update_playlist` and `main` as trace-producing
  functions over an upstream oracle `SpotifyEnv`.  `sys.exit(1)` raises
  `SystemExit`, which is not a subclass of `Exception`; the outcome type
  keeps `exit` distinct from `exc` because `main`'s `except Exception`
  catches only the latter.
-/

/-- Track identifiers: the code compares tracks only by their `uri` string. -/
abbrev Uri := String

/-- A top-tracks item; the only field the code reads is `track['uri']`. -/
structure Track where
  uri : Uri
deriving DecidableEq

/-- A playlist summary; the code reads `playlist['id']` and `playlist['name']`. -/
structure Playlist where
  id : String
  name : String
deriving DecidableEq

/-- Python exceptions that the embedded code can raise (all subclasses of
`Exception`, hence caught by `except Exception`). -/
inductive PyError where
  | nameError
  | keyError
  | apiError
deriving DecidableEq

/-- Result of running a piece of the Python program: normal value, uncaught
exception, or `sys.exit` (`SystemExit`, which `except Exception` does NOT
catch). -/
inductive Outcome (α : Type) where
  | ok (a : α)
  | exc (e : PyError)
  | exit (code : Nat)
deriving DecidableEq

/-- The `while len(tracks) < limit` loop of `get_top_tracks` (lines 64-95).
On a successful page fetch the page is appended; a short page (fewer than 50
items) ends pagination and the function returns `tracks[:limit]`; a failed
fetch raises `NameError` while evaluating the broken `except RequestException`
clause (see the module comment), so the loop aborts with that exception. -/
def getTopTracksLoop (fetchPage : Nat → Option (List Track)) (limit : Nat)
    (tracks : List Track) (offset : Nat) : Except PyError (List Track) :=
  if h : tracks.length < limit then
    match fetchPage offset with
    | none => .error .nameError
    | some newTracks =>
      if hs : newTracks.length < 50 then
        .ok ((tracks ++ newTracks).take limit)
      else
        getTopTracksLoop fetchPage limit (tracks ++ newTracks) (offset + 50)
  else
    .ok (tracks.take limit)
termination_by limit - tracks.length
decreasing_by
  simp only [List.length_append]
  omega

/-- `get_top_tracks(limit, time_range)` (lines 54-98): start with no tracks at
offset 0. -/
def getTopTracks (fetchPage : Nat → Option (List Track)) (limit : Nat) :
    Except PyError (List Track) :=
  getTopTracksLoop fetchPage limit [] 0

/-- The `new_track_list` accumulated by the loop at lines 157-161: the ranked
tracks whose uri is in the current-track set, in ranked order. -/
def retainedHead : List Track → List Uri → List Uri
  | [], _ => []
  | t :: ts, cur =>
    if t.uri ∈ cur then t.uri :: retainedHead ts cur else retainedHead ts cur

/-- The `tracks_to_add` accumulated by the same loop: ranked tracks whose uri
is not in the current-track set, in ranked order. -/
def toAdd : List Track → List Uri → List Uri
  | [], _ => []
  | t :: ts, cur =>
    if t.uri ∈ cur then toAdd ts cur else t.uri :: toAdd ts cur

/-- `new_track_list` after line 164's
`extend([uri for uri in current_tracks if uri not in new_track_list])`:
the retained head followed by the leftover current tracks (the comprehension
is evaluated against the head before the extend mutates the list). -/
def newTrackListFull (topTracks : List Track) (currentTracks : List Uri) : List Uri :=
  retainedHead topTracks currentTracks ++
    currentTracks.filter (fun u => !decide (u ∈ retainedHead topTracks currentTracks))

/-- `new_track_list = new_track_list[:track_limit]` (line 167): the payload of
the `playlist_replace_items` call. -/
def finalTrackList (topTracks : List Track) (currentTracks : List Uri)
    (trackLimit : Nat) : List Uri :=
  (newTrackListFull topTracks currentTracks).take trackLimit

/-- The final applied playlist sequence: the replace payload followed by the
append payload (`playlist_replace_items` then `playlist_add_items`; when
`tracks_to_add` is empty the append is skipped, which appends nothing, so the
concatenation is the sequence in either case). -/
def appliedSequence (topTracks : List Track) (currentTracks : List Uri)
    (trackLimit : Nat) : List Uri :=
  finalTrackList topTracks currentTracks trackLimit ++ toAdd topTracks currentTracks

/-- Upstream playlist operations issued by the program, in issue order.
Payloads that no claim observes (visibility flag, description text) are
elided; the calls themselves are all recorded. -/
inductive Op where
  | listPlaylists
  | changeDetails (playlistId : String)
  | createPlaylist (name : String)
  | getItems (playlistId : String)
  | replaceItems (playlistId : String) (uris : List Uri)
  | addItems (playlistId : String) (uris : List Uri)
deriving DecidableEq

/-- One time window's view of the upstream service: each client call is an
oracle telling how the upstream answers (with `none` / `false` meaning the
call raises an exception). -/
structure SpotifyEnv where
  fetchPage : Nat → Option (List Track)
  listOk : Bool
  userPlaylists : List Playlist
  changeDetailsOk : Bool
  createResult : Option Playlist
  playlistItems : String → Option (List Uri)
  replaceOk : Bool
  addOk : Bool

/-- `get_or_create_playlist(name, ...)` (lines 100-122).  The whole body sits
in one `try`; any exception (listing, metadata update, creation) reaches the
handler, which calls `sys.exit(1)`.  The first playlist whose name matches
exactly is updated and returned; otherwise one is created. -/
def getOrCreatePlaylist (env : SpotifyEnv) (name : String) :
    Outcome Playlist × List Op :=
  if env.listOk then
    match env.userPlaylists.find? (fun p => p.name == name) with
    | some p =>
      if env.changeDetailsOk then (.ok p, [.listPlaylists, .changeDetails p.id])
      else (.exit 1, [.listPlaylists, .changeDetails p.id])
    | none =>
      match env.createResult with
      | some p => (.ok p, [.listPlaylists, .createPlaylist name])
      | none => (.exit 1, [.listPlaylists, .createPlaylist name])
  else (.exit 1, [.listPlaylists])

/-- The `time_range_names` dict (lines 130-134); an unknown key raises
`KeyError`. -/
def timeRangeName (timeRange : String) : Option String :=
  if timeRange = "short_term" then some "Last 4 Weeks"
  else if timeRange = "medium_term" then some "Last 6 Months"
  else if timeRange = "long_term" then some "All Time"
  else none

/-- `update_playlist(time_range, track_limit, is_private)` (lines 124-189),
returning its outcome and the trace of upstream playlist operations issued.
The dict lookup happens first (line 135); an empty fetch result returns
before any playlist operation (lines 139-141); the current-items fetch
(line 147) is not wrapped in a `try`, so its failure propagates as an
exception; the replace and the conditional append each convert failure into
`sys.exit(1)` (lines 170-182). -/
def updatePlaylist (env : SpotifyEnv) (timeRange : String) (trackLimit : Nat) :
    Outcome Unit × List Op :=
  match timeRangeName timeRange with
  | none => (.exc .keyError, [])
  | some rangeName =>
    let playlistName := "Top " ++ toString trackLimit ++ " Songs - " ++ rangeName
    match getTopTracks env.fetchPage trackLimit with
    | .error e => (.exc e, [])
    | .ok topTracks =>
      if topTracks = [] then (.ok (), [])
      else
        match getOrCreatePlaylist env playlistName with
        | (.ok pl, ops) =>
          match env.playlistItems pl.id with
          | none => (.exc .apiError, ops ++ [.getItems pl.id])
          | some currentTracks =>
            let payload := finalTrackList topTracks currentTracks trackLimit
            let adds := toAdd topTracks currentTracks
            if env.replaceOk then
              if adds = [] then
                (.ok (), ops ++ [.getItems pl.id, .replaceItems pl.id payload])
              else if env.addOk then
                (.ok (), ops ++ [.getItems pl.id, .replaceItems pl.id payload,
                  .addItems pl.id adds])
              else
                (.exit 1, ops ++ [.getItems pl.id, .replaceItems pl.id payload,
                  .addItems pl.id adds])
            else
              (.exit 1, ops ++ [.getItems pl.id, .replaceItems pl.id payload])
        | (.exit c, ops) => (.exit c, ops)
        | (.exc e, ops) => (.exc e, ops)

/-- The fixed window order iterated by `main` (line 200). -/
def timeRanges : List String := ["short_term", "medium_term", "long_term"]

/-- The `for time_range in time_ranges` loop of `main` (lines 200-206): each
window's `update_playlist` runs under `except Exception`, which catches an
ordinary exception (logs and continues with the next window) but NOT the
`SystemExit` raised by `sys.exit(1)`, which aborts the whole loop.  The
result pairs the overall outcome with the per-window operation traces that
were actually executed. -/
def runWindows (envOf : String → SpotifyEnv) :
    List String → Outcome Unit × List (List Op)
  | [] => (.ok (), [])
  | t :: rest =>
    match updatePlaylist (envOf t) t 100 with
    | (.exit c, ops) => (.exit c, [ops])
    | (.exc _, ops) =>
      let r := runWindows envOf rest
      (r.1, ops :: r.2)
    | (.ok _, ops) =>
      let r := runWindows envOf rest
      (r.1, ops :: r.2)

/-- `main()` (lines 191-208) with `track_limit = 100` over the three fixed
windows. -/
def runMain (envOf : String → SpotifyEnv) : Outcome Unit × List (List Op) :=
  runWindows envOf timeRanges

/-- Upstream playlist state: each playlist id maps to its track sequence. -/
def PlaylistStore := String → List Uri

/-- Effect of one successful upstream operation on playlist contents (only
replace and append mutate a playlist's track sequence). -/
def applyOp (s : PlaylistStore) : Op → PlaylistStore
  | .replaceItems pid uris => fun q => if q = pid then uris else s q
  | .addItems pid uris => fun q => if q = pid then s q ++ uris else s q
  | _ => s

/-- Effect of an operation trace on playlist contents. -/
def applyOps (s : PlaylistStore) (ops : List Op) : PlaylistStore :=
  ops.foldl applyOp s

theorem retainedHead_eq_filter (top : List Track) (cur : List Uri) :
    retainedHead top cur = (top.map Track.uri).filter (fun u => decide (u ∈ cur)) := by
  induction top with
  | nil => rfl
  | cons t ts ih =>
    by_cases h : t.uri ∈ cur <;> simp [retainedHead, h, ih]

theorem toAdd_eq_filter (top : List Track) (cur : List Uri) :
    toAdd top cur = (top.map Track.uri).filter (fun u => !decide (u ∈ cur)) := by
  induction top with
  | nil => rfl
  | cons t ts ih =>
    by_cases h : t.uri ∈ cur <;> simp [toAdd, h, ih]

theorem mem_retainedHead {u : Uri} {top : List Track} {cur : List Uri} :
    u ∈ retainedHead top cur ↔ u ∈ top.map Track.uri ∧ u ∈ cur := by
  rw [retainedHead_eq_filter]
  simp [List.mem_filter]

theorem mem_toAdd {u : Uri} {top : List Track} {cur : List Uri} :
    u ∈ toAdd top cur ↔ u ∈ top.map Track.uri ∧ u ∉ cur := by
  rw [toAdd_eq_filter]
  simp [List.mem_filter]

theorem length_retainedHead_le (top : List Track) (cur : List Uri) :
    (retainedHead top cur).length ≤ top.length := by
  rw [retainedHead_eq_filter]
  calc ((top.map Track.uri).filter _).length ≤ (top.map Track.uri).length :=
        List.length_filter_le _ _
    _ = top.length := List.length_map _ _

theorem tail_filter_eq (top : List Track) (cur : List Uri) :
    cur.filter (fun u => !decide (u ∈ retainedHead top cur)) =
      cur.filter (fun u => !decide (u ∈ top.map Track.uri)) := by
  apply List.filter_congr
  intro u hu
  by_cases h : u ∈ top.map Track.uri
  · simp [mem_retainedHead, h, hu]
  · have : u ∉ retainedHead top cur := fun hc => h (mem_retainedHead.mp hc).1
    simp [this, h]

theorem newTrackListFull_eq (top : List Track) (cur : List Uri) :
    newTrackListFull top cur =
      retainedHead top cur ++ cur.filter (fun u => !decide (u ∈ top.map Track.uri)) := by
  rw [newTrackListFull, tail_filter_eq]

theorem mem_newTrackListFull_imp {u : Uri} {top : List Track} {cur : List Uri}
    (h : u ∈ newTrackListFull top cur) : u ∈ cur := by
  rcases List.mem_append.mp h with h | h
  · exact (mem_retainedHead.mp h).2
  · exact (List.mem_filter.mp h).1

theorem mem_finalTrackList_imp {u : Uri} {top : List Track} {cur : List Uri}
    {limit : Nat} (h : u ∈ finalTrackList top cur limit) : u ∈ cur :=
  mem_newTrackListFull_imp (List.mem_of_mem_take h)

theorem indexOf_filter_lt {α : Type} [DecidableEq α] (p : α → Bool) :
    ∀ (l : List α) (u v : α), u ≠ v → p u = true → p v = true →
      u ∈ l → v ∈ l → List.indexOf u l < List.indexOf v l →
      List.indexOf u (l.filter p) < List.indexOf v (l.filter p) := by
  intro l
  induction l with
  | nil => intro u v _ _ _ hu _ _; exact absurd hu (List.not_mem_nil u)
  | cons a t ih =>
    intro u v hne hpu hpv hu hv hlt
    by_cases hau : a = u
    · subst hau
      rw [List.filter_cons_of_pos hpu, List.indexOf_cons_self,
        List.indexOf_cons_ne _ hne]
      exact Nat.succ_pos _
    · by_cases hav : a = v
      · subst hav
        rw [List.indexOf_cons_self] at hlt
        exact absurd hlt (Nat.not_lt_zero _)
      · have hut : u ∈ t := (List.mem_cons.mp hu).resolve_left fun h => hau h.symm
        have hvt : v ∈ t := (List.mem_cons.mp hv).resolve_left fun h => hav h.symm
        rw [List.indexOf_cons_ne _ hau, List.indexOf_cons_ne _ hav,
          Nat.succ_lt_succ_iff] at hlt
        have ht := ih u v hne hpu hpv hut hvt hlt
        by_cases hpa : p a
        · have hnua : a ≠ u := hau
          have hnva : a ≠ v := hav
          rw [List.filter_cons_of_pos hpa, List.indexOf_cons_ne _ hnua,
            List.indexOf_cons_ne _ hnva]
          exact Nat.succ_lt_succ ht
        · rw [List.filter_cons_of_neg (by simpa using hpa)]
          exact ht

/-- Claim C1: truncation to the limit is applied to the retained list alone,
before the append.  Whenever the truncated retained list has exactly `limit`
entries and `tracks_to_add` is non-empty, the final applied sequence (replace
payload followed by append payload) has length exactly
`limit + len(tracks_to_add)`, strictly exceeding `limit`. -/
theorem claim1_capacity_overshoot (top : List Track) (cur : List Uri) (limit : Nat)
    (hfull : (finalTrackList top cur limit).length = limit)
    (hadd : toAdd top cur ≠ []) :
    (appliedSequence top cur limit).length = limit + (toAdd top cur).length ∧
      limit < (appliedSequence top cur limit).length := by
  have hlen : (appliedSequence top cur limit).length = limit + (toAdd top cur).length := by
    rw [appliedSequence, List.length_append, hfull]
  refine ⟨hlen, ?_⟩
  have hpos : 0 < (toAdd top cur).length := List.length_pos.mpr hadd
  omega

/-- Witness for C1: ranked `[a, b, c]`, current `[a, b]`, limit 2: the
truncated retained list is `[a, b]` (exactly the limit) and `c` is appended,
so the applied sequence has 3 = 2 + 1 entries. -/
theorem claim1_capacity_overshoot_witness :
    (appliedSequence [⟨"a"⟩, ⟨"b"⟩, ⟨"c"⟩] ["a", "b"] 2).length =
        2 + (toAdd [⟨"a"⟩, ⟨"b"⟩, ⟨"c"⟩] ["a", "b"]).length ∧
      2 < (appliedSequence [⟨"a"⟩, ⟨"b"⟩, ⟨"c"⟩] ["a", "b"] 2).length :=
  claim1_capacity_overshoot [⟨"a"⟩, ⟨"b"⟩, ⟨"c"⟩] ["a", "b"] 2 (by decide) (by decide)

/-- Claim C10: the replace payload contains only identifiers already present
in the playlist's current sequence, and the append payload contains only
identifiers not present there - a new identifier can enter the playlist only
through the append step. -/
theorem claim10_payload_partition (top : List Track) (cur : List Uri) (limit : Nat) :
    (∀ u ∈ finalTrackList top cur limit, u ∈ cur) ∧
      (∀ u ∈ toAdd top cur, u ∉ cur) :=
  ⟨fun _ hu => mem_finalTrackList_imp hu, fun _ hu => (mem_toAdd.mp hu).2⟩

/-- Witness for C10: with ranked `[a, b, c]` and current `[a, b]`, `a` is in
the replace payload (and indeed in the current list), while `c` is in the
append payload (and indeed not in the current list). -/
theorem claim10_payload_partition_witness :
    "a" ∈ ["a", "b"] ∧ "c" ∉ ["a", "b"] :=
  ⟨(claim10_payload_partition [⟨"a"⟩, ⟨"b"⟩, ⟨"c"⟩] ["a", "b"] 2).1 "a" (by decide),
    (claim10_payload_partition [⟨"a"⟩, ⟨"b"⟩, ⟨"c"⟩] ["a", "b"] 2).2 "c" (by decide)⟩

/-- Claim C6: sticky tail.  The pre-truncation retained list is exactly the
retained head (the tracks present in both lists, in ranked order) followed by
the current tracks absent from the ranked list, kept in their original
relative order (a filter of the current sequence); the head contains exactly
the tracks present in both lists, so every non-ranked survivor sits after all
of them, and every current track absent from the ranked list is kept. -/
theorem claim6_sticky_tail (top : List Track) (cur : List Uri) :
    newTrackListFull top cur =
        retainedHead top cur ++
          cur.filter (fun u => !decide (u ∈ top.map Track.uri)) ∧
      (∀ u, u ∈ retainedHead top cur ↔ u ∈ top.map Track.uri ∧ u ∈ cur) ∧
      (∀ u ∈ cur, u ∉ top.map Track.uri → u ∈ newTrackListFull top cur) := by
  refine ⟨newTrackListFull_eq top cur, fun _ => mem_retainedHead, ?_⟩
  intro u hu hnr
  rw [newTrackListFull_eq]
  exact List.mem_append.mpr (Or.inr (List.mem_filter.mpr ⟨hu, by simpa using hnr⟩))

/-- Witness for C6: ranked `[a, b, c]`, current `[c, d]`: `d` is current but
not ranked and is kept in the pre-truncation retained list `[c, d]`. -/
theorem claim6_sticky_tail_witness :
    "d" ∈ newTrackListFull [⟨"a"⟩, ⟨"b"⟩, ⟨"c"⟩] ["c", "d"] :=
  (claim6_sticky_tail [⟨"a"⟩, ⟨"b"⟩, ⟨"c"⟩] ["c", "d"]).2.2 "d" (by decide) (by decide)

/-- Claim C5: ordering preservation.  For two distinct tracks present in both
the ranked list and the current playlist, the one occurring earlier in the
ranked list occurs earlier in the computed retained sequence, regardless of
their relative order in the current playlist. -/
theorem claim5_ordering_preservation (top : List Track) (cur : List Uri) {u v : Uri}
    (hne : u ≠ v) (hu : u ∈ top.map Track.uri) (hv : v ∈ top.map Track.uri)
    (hucur : u ∈ cur) (hvcur : v ∈ cur)
    (hrank : List.indexOf u (top.map Track.uri) < List.indexOf v (top.map Track.uri)) :
    List.indexOf u (newTrackListFull top cur) <
      List.indexOf v (newTrackListFull top cur) := by
  have hhead := indexOf_filter_lt (fun x => decide (x ∈ cur)) (top.map Track.uri) u v
    hne (by simpa using hucur) (by simpa using hvcur) hu hv hrank
  rw [← retainedHead_eq_filter] at hhead
  have humem : u ∈ retainedHead top cur := mem_retainedHead.mpr ⟨hu, hucur⟩
  have hvmem : v ∈ retainedHead top cur := mem_retainedHead.mpr ⟨hv, hvcur⟩
  rw [newTrackListFull, List.indexOf_append_of_mem humem,
    List.indexOf_append_of_mem hvmem]
  exact hhead

/-- Witness for C5: ranked `[a, b, c]`, current `[c, a]` (prior playlist
order has `c` before `a`): in the retained sequence `a` nevertheless precedes
`c`, following the ranked order. -/
theorem claim5_ordering_preservation_witness :
    List.indexOf "a" (newTrackListFull [⟨"a"⟩, ⟨"b"⟩, ⟨"c"⟩] ["c", "a"]) <
      List.indexOf "c" (newTrackListFull [⟨"a"⟩, ⟨"b"⟩, ⟨"c"⟩] ["c", "a"]) :=
  claim5_ordering_preservation [⟨"a"⟩, ⟨"b"⟩, ⟨"c"⟩] ["c", "a"] (by decide)
    (by decide) (by decide) (by decide) (by decide) (by decide)

/-- Counterexample to claim C4 as stated: with ranked list `[a]` and current
playlist `[x, x]` (a playlist can contain a repeated identifier), the final
applied sequence is `[x, x, a]`: the leftover-current comprehension at line
164 keeps both copies of `x`, so an identifier appears twice. -/
theorem claim4_no_duplicates_counterexample :
    ¬ (appliedSequence [⟨"a"⟩] ["x", "x"] 100).Nodup := by decide

/-- Claim C4 (amended): provided the ranked list carries no repeated
identifier and the current playlist sequence carries no repeated identifier,
the final applied sequence (truncated retained list followed by the append
payload) contains no duplicate identifiers. -/
theorem claim4_no_duplicates_amended (top : List Track) (cur : List Uri)
    (limit : Nat) (htop : (top.map Track.uri).Nodup) (hcur : cur.Nodup) :
    (appliedSequence top cur limit).Nodup := by
  have hhead : (retainedHead top cur).Nodup := by
    rw [retainedHead_eq_filter]; exact htop.filter _
  have htail : (cur.filter (fun u => !decide (u ∈ retainedHead top cur))).Nodup :=
    hcur.filter _
  have hfull : (newTrackListFull top cur).Nodup := by
    refine List.Nodup.append hhead htail ?_
    intro a ha hatail
    have := (List.mem_filter.mp hatail).2
    simp only [Bool.not_eq_true', decide_eq_false_iff_not] at this
    exact this ha
  have hfinal : (finalTrackList top cur limit).Nodup :=
    List.Nodup.sublist (List.take_sublist limit _) hfull
  have hadds : (toAdd top cur).Nodup := by
    rw [toAdd_eq_filter]; exact htop.filter _
  refine List.Nodup.append hfinal hadds ?_
  intro a ha hb
  exact (mem_toAdd.mp hb).2 (mem_finalTrackList_imp ha)

/-- Witness for amended C4: ranked `[a, b, c]` and current `[c, d]` are both
duplicate-free, and the applied sequence `[c, d, a, b]` has no duplicates. -/
theorem claim4_no_duplicates_amended_witness :
    (appliedSequence [⟨"a"⟩, ⟨"b"⟩, ⟨"c"⟩] ["c", "d"] 10).Nodup :=
  claim4_no_duplicates_amended [⟨"a"⟩, ⟨"b"⟩, ⟨"c"⟩] ["c", "d"] 10
    (by decide) (by decide)

/-- Counterexample to claim C3 as stated, on the spec's own §8 scenario:
ranked `[a, b, c]`, current `[c, d]`, limit 10.  The first run applies
`[c, d, a, b]`.  The second run with the same ranked list computes a retained
list `[a, b, c, d]` that is NOT equal to the then-current sequence
`[c, d, a, b]`, and indeed applies a differently ordered sequence: the second
run reorders the playlist, so it is not a no-op. -/
theorem claim3_idempotence_counterexample :
    newTrackListFull [⟨"a"⟩, ⟨"b"⟩, ⟨"c"⟩]
        (appliedSequence [⟨"a"⟩, ⟨"b"⟩, ⟨"c"⟩] ["c", "d"] 10) ≠
      appliedSequence [⟨"a"⟩, ⟨"b"⟩, ⟨"c"⟩] ["c", "d"] 10 ∧
    appliedSequence [⟨"a"⟩, ⟨"b"⟩, ⟨"c"⟩]
        (appliedSequence [⟨"a"⟩, ⟨"b"⟩, ⟨"c"⟩] ["c", "d"] 10) 10 ≠
      appliedSequence [⟨"a"⟩, ⟨"b"⟩, ⟨"c"⟩] ["c", "d"] 10 := by decide

/-- Claim C3 (amended): when the ranked list fits within the limit (as the
fetch guarantees, since it truncates to the limit), a second reconcile run
with the same ranked list computes an empty `tracks_to_add` - it appends
nothing - and its retained list contains exactly the identifiers of the
then-current sequence (membership is unchanged); equality of sequences fails
in general because the second run reorders ranked tracks to rank order. -/
theorem claim3_idempotence_amended (top : List Track) (cur : List Uri)
    (limit : Nat) (hlen : top.length ≤ limit) :
    toAdd top (appliedSequence top cur limit) = [] ∧
      ∀ u, u ∈ newTrackListFull top (appliedSequence top cur limit) ↔
        u ∈ appliedSequence top cur limit := by
  have hheadlen : (retainedHead top cur).length ≤ limit :=
    le_trans (length_retainedHead_le top cur) hlen
  have hranked : ∀ u ∈ top.map Track.uri, u ∈ appliedSequence top cur limit := by
    intro u hu
    by_cases hc : u ∈ cur
    · have hum : u ∈ retainedHead top cur := mem_retainedHead.mpr ⟨hu, hc⟩
      have : u ∈ finalTrackList top cur limit := by
        rw [finalTrackList, newTrackListFull, List.take_append_eq_append_take,
          List.take_of_length_le hheadlen]
        exact List.mem_append.mpr (Or.inl hum)
      exact List.mem_append.mpr (Or.inl this)
    · exact List.mem_append.mpr (Or.inr (mem_toAdd.mpr ⟨hu, hc⟩))
  constructor
  · rw [toAdd_eq_filter]
    refine List.filter_eq_nil_iff.mpr ?_
    intro a ha
    simp only [Bool.not_eq_true', decide_eq_false_iff_not, not_not]
    exact hranked a ha
  · intro u
    constructor
    · intro hu
      rcases List.mem_append.mp hu with hh | ht
      · exact (mem_retainedHead.mp hh).2
      · exact (List.mem_filter.mp ht).1
    · intro hu
      by_cases hr : u ∈ top.map Track.uri
      · exact List.mem_append.mpr (Or.inl (mem_retainedHead.mpr ⟨hr, hu⟩))
      · refine List.mem_append.mpr (Or.inr (List.mem_filter.mpr ⟨hu, ?_⟩))
        simp only [Bool.not_eq_true', decide_eq_false_iff_not]
        exact fun hc => hr (mem_retainedHead.mp hc).1

/-- Witness for amended C3: on the spec's §8 scenario (first run applies
`[c, d, a, b]`), the second run computes an empty `tracks_to_add` and a
retained list with exactly the same members as `[c, d, a, b]`. -/
theorem claim3_idempotence_amended_witness :
    toAdd [⟨"a"⟩, ⟨"b"⟩, ⟨"c"⟩]
        (appliedSequence [⟨"a"⟩, ⟨"b"⟩, ⟨"c"⟩] ["c", "d"] 10) = [] ∧
      ∀ u, u ∈ newTrackListFull [⟨"a"⟩, ⟨"b"⟩, ⟨"c"⟩]
          (appliedSequence [⟨"a"⟩, ⟨"b"⟩, ⟨"c"⟩] ["c", "d"] 10) ↔
        u ∈ appliedSequence [⟨"a"⟩, ⟨"b"⟩, ⟨"c"⟩] ["c", "d"] 10 :=
  claim3_idempotence_amended [⟨"a"⟩, ⟨"b"⟩, ⟨"c"⟩] ["c", "d"] 10 (by decide)

/-- Claim C7 (code bug): the source intends bounded retry (3 attempts, 5 s
backoff) and then a degraded partial result, but line 79 catches
`RequestException`, a name the module never imports (only `Timeout` is
imported).  Evaluating that name while matching the clause raises
`NameError`, which escapes the whole `try`, so the very first failed page
fetch aborts `get_top_tracks` with an exception instead of retrying or
returning the tracks accumulated so far.  Here the first page (50 tracks)
succeeds and the second page's fetch fails: the function raises rather than
returning the 50 accumulated tracks. -/
theorem claim7_retry_code_bug :
    getTopTracks
        (fun offset => if offset = 0 then some (List.replicate 50 ⟨"a"⟩) else none)
        100 =
      .error .nameError := by
  rw [getTopTracks, getTopTracksLoop]
  norm_num
  rw [getTopTracksLoop]
  norm_num

/-- Concatenation of the pages `p j, p (j+1), ..., p (j+d-1)` in fetch
order. -/
def pageBlock (p : Nat → List Track) : Nat → Nat → List Track
  | _, 0 => []
  | j, d + 1 => p j ++ pageBlock p (j + 1) d

theorem pageBlock_length (p : Nat → List Track) :
    ∀ d j, (∀ i, i < d → (p (j + i)).length = 50) →
      (pageBlock p j d).length = 50 * d := by
  intro d
  induction d with
  | zero => intro j _; rfl
  | succ d ih =>
    intro j hp
    have h0 : (p j).length = 50 := by simpa using hp 0 (Nat.succ_pos d)
    have hrest : (pageBlock p (j + 1) d).length = 50 * d := by
      refine ih (j + 1) ?_
      intro i hi
      have := hp (i + 1) (by omega)
      simpa [Nat.add_assoc, Nat.add_comm 1 i] using this
    simp only [pageBlock, List.length_append, h0, hrest]
    ring

theorem getTopTracksLoop_pages (fetchPage : Nat → Option (List Track))
    (limit k : Nat) (p : Nat → List Track) (q : List Track)
    (hp : ∀ i, i < k → fetchPage (50 * i) = some (p i))
    (hplen : ∀ i, i < k → (p i).length = 50)
    (hq : fetchPage (50 * k) = some q) (hqs : q.length < 50)
    (hlim : 50 * k + q.length < limit) :
    ∀ d j (tracks : List Track), j + d = k → tracks.length = 50 * j →
      getTopTracksLoop fetchPage limit tracks (50 * j) =
        .ok (tracks ++ (pageBlock p j d ++ q)) := by
  intro d
  induction d with
  | zero =>
    intro j tracks hjk htl
    have hj : j = k := by omega
    subst hj
    have h1 : tracks.length < limit := by omega
    rw [getTopTracksLoop, dif_pos h1, hq]
    simp only [pageBlock, List.nil_append]
    rw [dif_pos hqs, List.take_of_length_le (by simp [List.length_append]; omega)]
  | succ d ih =>
    intro j tracks hjk htl
    have hjk2 : j < k := by omega
    have h1 : tracks.length < limit := by
      have : 50 * j < 50 * k := by omega
      omega
    have hpl : (p j).length = 50 := hplen j hjk2
    rw [getTopTracksLoop, dif_pos h1, hp j hjk2]
    dsimp only
    rw [dif_neg (by omega : ¬ (p j).length < 50)]
    have hoff : 50 * j + 50 = 50 * (j + 1) := by ring
    rw [hoff]
    have := ih (j + 1) (tracks ++ p j) (by omega)
      (by simp [List.length_append, htl, hpl]; ring)
    rw [this]
    simp [pageBlock, List.append_assoc]

/-- Claim C8: when every page request is answered and a page shorter than the
page size (50) arrives while the accumulated count is still below the limit,
`get_top_tracks` stops paginating at that short page and returns exactly the
accumulated tracks - a list shorter than `limit` - without raising.  Pages
`p 0 .. p (k-1)` are full (50 items each, fetched at offsets 0, 50, ...),
page `q` at offset `50 * k` is short, and the accumulated total stays below
the limit. -/
theorem claim8_short_page_partial_fetch (fetchPage : Nat → Option (List Track))
    (limit k : Nat) (p : Nat → List Track) (q : List Track)
    (hp : ∀ i, i < k → fetchPage (50 * i) = some (p i))
    (hplen : ∀ i, i < k → (p i).length = 50)
    (hq : fetchPage (50 * k) = some q) (hqs : q.length < 50)
    (hlim : 50 * k + q.length < limit) :
    getTopTracks fetchPage limit = .ok (pageBlock p 0 k ++ q) ∧
      (pageBlock p 0 k ++ q).length < limit := by
  have hblock : (pageBlock p 0 k).length = 50 * k := by
    refine pageBlock_length p k 0 ?_
    intro i hi
    simpa using hplen i hi
  constructor
  · have := getTopTracksLoop_pages fetchPage limit k p q hp hplen hq hqs hlim
      k 0 [] (by omega) (by simp)
    rw [getTopTracks]
    simpa using this
  · simp only [List.length_append, hblock]
    omega

/-- Witness for C8: one full page of 50 copies of `a` at offset 0, then a
single-track page at offset 50, with limit 100: the fetch returns the 51
accumulated tracks, fewer than 100, without raising. -/
theorem claim8_short_page_partial_fetch_witness :
    getTopTracks
          (fun offset => if offset = 0 then some (List.replicate 50 (Track.mk "a"))
            else some [Track.mk "b"]) 100 =
        .ok (pageBlock (fun _ => List.replicate 50 (Track.mk "a")) 0 1 ++ [Track.mk "b"]) ∧
      (pageBlock (fun _ => List.replicate 50 (Track.mk "a")) 0 1 ++ [Track.mk "b"]).length < 100 :=
  claim8_short_page_partial_fetch
    (fun offset => if offset = 0 then some (List.replicate 50 (Track.mk "a"))
      else some [Track.mk "b"])
    100 1 (fun _ => List.replicate 50 (Track.mk "a")) [Track.mk "b"]
    (by decide) (by decide) (by decide) (by decide) (by decide)

theorem getTopTracks_first_empty (fetchPage : Nat → Option (List Track))
    (limit : Nat) (h : fetchPage 0 = some []) :
    getTopTracks fetchPage limit = .ok [] := by
  rw [getTopTracks, getTopTracksLoop]
  by_cases hl : (0 : Nat) < limit
  · rw [dif_pos (by simpa using hl), h]
    dsimp only
    rw [dif_pos (by norm_num)]
    simp
  · rw [dif_neg (by simpa using hl)]
    simp

/-- Claim C9: if the fetch for a (valid) time window yields an empty
sequence - in particular when the very first page is empty - then
`update_playlist` returns normally without issuing any playlist operation:
nothing is listed, created, metadata-updated, read, replaced or appended, and
upstream playlist state is unchanged. -/
theorem claim9_empty_fetch_is_noop (env : SpotifyEnv) (timeRange : String)
    (limit : Nat) (htr : timeRange ∈ timeRanges)
    (hfirst : env.fetchPage 0 = some []) :
    updatePlaylist env timeRange limit = (.ok (), []) ∧
      ∀ s : PlaylistStore, applyOps s (updatePlaylist env timeRange limit).2 = s := by
  have hget := getTopTracks_first_empty env.fetchPage limit hfirst
  have hupd : updatePlaylist env timeRange limit = (.ok (), []) := by
    fin_cases htr <;> simp [updatePlaylist, timeRangeName, hget]
  exact ⟨hupd, fun s => by rw [hupd]; rfl⟩

/-- An upstream whose very first top-tracks page is empty. -/
def emptyFetchEnv : SpotifyEnv where
  fetchPage := fun _ => some []
  listOk := true
  userPlaylists := []
  changeDetailsOk := true
  createResult := none
  playlistItems := fun _ => some []
  replaceOk := true
  addOk := true

/-- Witness for C9: with an empty first page, the short-term window's update
returns normally with an empty operation trace, leaving any store as is. -/
theorem claim9_empty_fetch_is_noop_witness :
    updatePlaylist emptyFetchEnv "short_term" 100 = (.ok (), []) ∧
      ∀ s : PlaylistStore,
        applyOps s (updatePlaylist emptyFetchEnv "short_term" 100).2 = s :=
  claim9_empty_fetch_is_noop emptyFetchEnv "short_term" 100 (by decide) (by decide)

/-- An upstream for which everything succeeds except the bulk replace
mutation, which is rejected. -/
def replaceRejectedEnv : SpotifyEnv where
  fetchPage := fun _ => some [Track.mk "a"]
  listOk := true
  userPlaylists := []
  changeDetailsOk := true
  createResult := some (Playlist.mk "pid" "Top 100 Songs - Last 4 Weeks")
  playlistItems := fun _ => some []
  replaceOk := false
  addOk := true

theorem updatePlaylist_replaceRejected :
    updatePlaylist replaceRejectedEnv "short_term" 100 =
      (.exit 1, [.listPlaylists, .createPlaylist "Top 100 Songs - Last 4 Weeks",
        .getItems "pid", .replaceItems "pid" []]) := by
  have hget : getTopTracks (fun _ : Nat => some [Track.mk "a"]) 100 =
      .ok [Track.mk "a"] := by
    rw [getTopTracks, getTopTracksLoop]
    norm_num
  have hpay : finalTrackList [Track.mk "a"] [] 100 = [] := by decide
  have hname : "Top " ++ toString (100 : Nat) ++ " Songs - " ++ "Last 4 Weeks" =
      "Top 100 Songs - Last 4 Weeks" := rfl
  simp [updatePlaylist, timeRangeName, hget, getOrCreatePlaylist,
    replaceRejectedEnv, hpay, hname]

/-- Counterexample to claim C2 as stated: a rejected replace mutation in the
first window ("short_term") makes `update_playlist` call `sys.exit(1)`;
`SystemExit` is not a subclass of `Exception`, so the orchestrator's
`except Exception` does not catch it and the whole run aborts: the result is
`exit 1` and the trace holds operations for ONE window only - the
"medium_term" and "long_term" windows never execute. -/
theorem claim2_window_isolation_counterexample :
    runMain (fun _ => replaceRejectedEnv) =
      (.exit 1, [[.listPlaylists, .createPlaylist "Top 100 Songs - Last 4 Weeks",
        .getItems "pid", .replaceItems "pid" []]]) := by
  simp [runMain, timeRanges, runWindows, updatePlaylist_replaceRejected]

/-- Claim C2 (amended): a window failure raised as an ordinary exception
(for example the unguarded current-items fetch at line 147 raising, or the
`NameError` escaping `get_top_tracks`) is fatal to that window only: the
orchestrator's `except Exception` catches it and the remaining windows'
pipelines still run, their results unaffected.  A rejected replace or append
mutation, however, turns into `sys.exit(1)` inside `update_playlist`, which
escapes the handler and aborts the process before any remaining window (see
the counterexample). -/
theorem claim2_window_isolation_amended (envOf : String → SpotifyEnv)
    (t : String) (rest : List String) (e : PyError) (ops : List Op)
    (h : updatePlaylist (envOf t) t 100 = (.exc e, ops)) :
    runWindows envOf (t :: rest) =
      ((runWindows envOf rest).1, ops :: (runWindows envOf rest).2) := by
  simp [runWindows, h]

/-- An upstream for which the current-items fetch raises (line 147, not
wrapped in a `try`), while everything before it succeeds. -/
def itemsFailEnv : SpotifyEnv where
  fetchPage := fun _ => some [Track.mk "a"]
  listOk := true
  userPlaylists := []
  changeDetailsOk := true
  createResult := some (Playlist.mk "pid" "Top 100 Songs - Last 4 Weeks")
  playlistItems := fun _ => none
  replaceOk := true
  addOk := true

/-- Witness for amended C2: the short-term window raises an ordinary
exception at the current-items fetch; the run continues with the two
remaining windows, whose outcome and traces are exactly those of running
them alone. -/
theorem claim2_window_isolation_amended_witness :
    runWindows (fun _ => itemsFailEnv) ("short_term" :: ["medium_term", "long_term"]) =
      ((runWindows (fun _ => itemsFailEnv) ["medium_term", "long_term"]).1,
        [Op.listPlaylists, Op.createPlaylist "Top 100 Songs - Last 4 Weeks",
          Op.getItems "pid"] ::
          (runWindows (fun _ => itemsFailEnv) ["medium_term", "long_term"]).2) :=
  claim2_window_isolation_amended (fun _ => itemsFailEnv) "short_term"
    ["medium_term", "long_term"] .apiError
    [Op.listPlaylists, Op.createPlaylist "Top 100 Songs - Last 4 Weeks",
      Op.getItems "pid"]
    (by
      have hget : getTopTracks (fun _ : Nat => some [Track.mk "a"]) 100 =
          .ok [Track.mk "a"] := by
        rw [getTopTracks, getTopTracksLoop]
        norm_num
      have hname : "Top " ++ toString (100 : Nat) ++ " Songs - " ++ "Last 4 Weeks" =
          "Top 100 Songs - Last 4 Weeks" := rfl
      simp [updatePlaylist, timeRangeName, hget, getOrCreatePlaylist,
        itemsFailEnv, hname])
